import Mathlib

/-!
Shallow embedding of `src/lec2_flask.py`, a single-endpoint Flask unit-converter
service.  The embedding covers the unit registry (the `ALLOWED_UNITS` and
`NORMALIZE` dictionaries), the helper functions `get_unit_type`, `normalize`,
the six conversion formulas, and the body of the `POST /convert` handler from
the point where all three fields are present (the JSON-shape and missing-field
checks of lines 99–111 are presupposed by every claim below).

Modelling choices:
* Python floats are modelled as rationals `ℚ`; the arithmetic of the six
  conversion formulas is exact rational arithmetic.
* `round(x, 6)` is modelled as rounding `x·10⁶` to the nearest integer.
  Mathlib's `round` breaks ties upward while Python's float `round` breaks
  (binary) ties to even; no statement below depends on a tie.
* Python string operations used by the handler (`strip`, `lower`, `sorted`,
  dict lookup) are modelled by structurally recursive functions on the
  character list, so that they reduce inside the kernel.
* `float(value)` on a JSON value is modelled by `pyFloat`: numbers pass
  through, booleans coerce to 1/0, strings are parsed as finite decimal /
  scientific literals, everything else fails (raises in Python).  The special
  strings `"inf"`/`"nan"` and digit-group underscores are not modelled; no
  claim touches them.
-/

namespace Lec2Flask

/-- A JSON value as decoded by Flask's `request.get_json()` into a Python
object, restricted to the shapes the handler inspects: numbers (modelled as
rationals), strings, booleans, null, and a stand-in for arrays/objects. -/
inductive JVal where
  | num (q : ℚ)
  | str (s : String)
  | bool (b : Bool)
  | null
  | other
deriving DecidableEq

/-- Python `str.strip()`: drop leading and trailing whitespace.  (ASCII
whitespace; Python additionally strips a few rarer space characters, which no
claim uses.) -/
def pyStrip (s : String) : String :=
  ⟨((s.data.dropWhile Char.isWhitespace).reverse.dropWhile Char.isWhitespace).reverse⟩

/-- Python `str.lower()` (ASCII case folding; every registry key is ASCII). -/
def pyLower (s : String) : String :=
  ⟨s.data.map Char.toLower⟩

/-- The `ALLOWED_UNITS` dict (src lines 20–40): accepted spelling → category.
Python dicts preserve insertion order, so an association list in source order
is the faithful embedding. -/
def ALLOWED_UNITS : List (String × String) :=
  [("miles", "length"),
   ("mile", "length"),
   ("mi", "length"),
   ("kilometer", "length"),
   ("kilometers", "length"),
   ("km", "length"),
   ("kilometre", "length"),
   ("kilometres", "length"),
   ("pounds", "weight"),
   ("pound", "weight"),
   ("lb", "weight"),
   ("lbs", "weight"),
   ("kilogram", "weight"),
   ("kilograms", "weight"),
   ("kg", "weight"),
   ("celsius", "temperature"),
   ("c", "temperature"),
   ("fahrenheit", "temperature"),
   ("f", "temperature")]

/-- The `NORMALIZE` dict (src lines 43–52): accepted spelling → canonical
short code. -/
def NORMALIZE : List (String × String) :=
  [("miles", "mi"), ("mile", "mi"), ("mi", "mi"),
   ("kilometer", "km"), ("kilometers", "km"), ("km", "km"),
   ("kilometre", "km"), ("kilometres", "km"),
   ("pounds", "lb"), ("pound", "lb"), ("lbs", "lb"), ("lb", "lb"),
   ("kilogram", "kg"), ("kilograms", "kg"), ("kg", "kg"),
   ("celsius", "c"), ("c", "c"), ("fahrenheit", "f"), ("f", "f")]

/-- Source `get_unit_type` (src lines 55–58): `ALLOWED_UNITS.get(unit.lower())`.
The handler always passes an actual string, so the `unit is None` guard of the
Python function is vacuous here. -/
def get_unit_type (unit : String) : Option String :=
  ALLOWED_UNITS.lookup (pyLower unit)

/-- Source `normalize` (src lines 61–64): `NORMALIZE.get(unit.lower())`. -/
def normalize (unit : String) : Option String :=
  NORMALIZE.lookup (pyLower unit)

/-- Numeric value of a list of decimal digit characters, most significant
digit first. -/
def digitsVal (l : List Char) : ℕ :=
  l.foldl (fun n c => 10 * n + (c.toNat - 48)) 0

/-- Python `float(string)` on an already-stripped string: an optional sign,
then digits with at most one decimal point (at least one digit), then an
optional exponent part `e`/`E`, sign, digits. -/
def parseFloat (s : String) : Option ℚ :=
  let (sgn, l0) : ℚ × List Char :=
    match s.data with
    | '+' :: r => (1, r)
    | '-' :: r => (-1, r)
    | r => (1, r)
  let (ip, l1) := l0.span Char.isDigit
  let (fp, l2) :=
    match l1 with
    | '.' :: r => r.span Char.isDigit
    | _ => (([] : List Char), l1)
  let mant : ℚ := (digitsVal ip : ℚ) + (digitsVal fp : ℚ) / (10 : ℚ) ^ fp.length
  match l2 with
  | [] => if ip.length + fp.length = 0 then none else some (sgn * mant)
  | 'e' :: r | 'E' :: r =>
    let (esgn, r1) : ℤ × List Char :=
      match r with
      | '+' :: t => (1, t)
      | '-' :: t => (-1, t)
      | t => (1, t)
    let (ed, r2) := r1.span Char.isDigit
    if ip.length + fp.length = 0 ∨ ed = [] ∨ r2 ≠ [] then none
    else some (sgn * mant * (10 : ℚ) ^ (esgn * (digitsVal ed : ℤ)))
  | _ => none

/-- Python `float(value)` applied to a JSON value (src lines 119–122): numbers pass
through, booleans coerce (`bool` is an `int` subclass in Python, so
`float(True) = 1.0`), strings are stripped and parsed, and every other shape
raises, which the handler turns into the value error. -/
def pyFloat : JVal → Option ℚ
  | .num q => some q
  | .bool b => some (if b then 1 else 0)
  | .str s => parseFloat (pyStrip s)
  | _ => none

/-- Source `miles_to_km` (src lines 68–69). -/
def miles_to_km (mi : ℚ) : ℚ := mi * 1.609344

/-- Source `km_to_miles` (src lines 72–73). -/
def km_to_miles (km : ℚ) : ℚ := km / 1.609344

/-- Source `lb_to_kg` (src lines 76–77). -/
def lb_to_kg (lb : ℚ) : ℚ := lb * 0.45359237

/-- Source `kg_to_lb` (src lines 80–81). -/
def kg_to_lb (kg : ℚ) : ℚ := kg / 0.45359237

/-- Source `c_to_f` (src lines 84–85): `(c * 9.0 / 5.0) + 32.0`. -/
def c_to_f (c : ℚ) : ℚ := c * 9 / 5 + 32

/-- Source `f_to_c` (src lines 88–89): `(f - 32.0) * 5.0 / 9.0`. -/
def f_to_c (f : ℚ) : ℚ := (f - 32) * 5 / 9

/-- Rounding `round(x, 6)` (src line 190): round to six decimal places. -/
def round6 (q : ℚ) : ℚ := ((round (q * 1000000) : ℤ) : ℚ) / 1000000

/-- The success payload `resp` built at src lines 192–198. -/
structure ConvOk where
  original_value : ℚ
  original_unit : String
  converted_value : ℚ
  converted_unit : String
  conversion_type : String
deriving DecidableEq

/-- One constructor per `error_response` call site of the handler, carrying the
dynamic parts of the JSON payload (the fixed `error` message strings are
represented by the constructor itself). -/
inductive ConvErr where
  /-- Error "value must be a number" (src line 122), with the `provided` field. -/
  | valueNotNumber (provided : JVal)
  /-- Error "from_unit must be a non-empty string" (src line 126). -/
  | invalidFromUnit (provided : JVal)
  /-- Error "to_unit must be a non-empty string" (src line 128). -/
  | invalidToUnit (provided : JVal)
  /-- Error "Unsupported from_unit" (src line 138), with `provided` and `allowed_units`. -/
  | unknownFromUnit (provided : String) (allowed_units : List String)
  /-- Error "Unsupported to_unit" (src line 140). -/
  | unknownToUnit (provided : String) (allowed_units : List String)
  /-- Error "Unsupported conversion types" (src line 144). -/
  | categoryMismatch (from_type to_type from_unit to_unit : String)
  /-- Error "Unit normalization failed" (src line 150). -/
  | normalizationFailed (from_unit to_unit : String)
  /-- Error "Negative value not allowed for selected unit type" (src line 154). -/
  | negativeValue (unit_type : String) (provided_value : ℚ)
  /-- Error "Unsupported length conversion pair" (src line 166). -/
  | unsupportedLengthPair
  /-- Error "Unsupported weight conversion pair" (src line 175). -/
  | unsupportedWeightPair
  /-- Error "Unsupported temperature conversion pair" (src line 184). -/
  | unsupportedTemperaturePair
  /-- Error "Unhandled unit type" (src line 186). -/
  | unhandledUnitType
deriving DecidableEq

/-- The HTTP status code passed to `error_response` at each call site. -/
def ConvErr.status : ConvErr → ℕ
  | .valueNotNumber _ => 422
  | .invalidFromUnit _ => 422
  | .invalidToUnit _ => 422
  | .unknownFromUnit _ _ => 422
  | .unknownToUnit _ _ => 422
  | .categoryMismatch _ _ _ _ => 400
  | .normalizationFailed _ _ => 422
  | .negativeValue _ _ => 400
  | .unsupportedLengthPair => 400
  | .unsupportedWeightPair => 400
  | .unsupportedTemperaturePair => 400
  | .unhandledUnitType => 500

/-- What the handler hands back to Flask: a success payload (HTTP 200) or an
error payload with its status code. -/
inductive ConvResponse where
  | ok (r : ConvOk)
  | err (e : ConvErr)
deriving DecidableEq

/-- HTTP status of a response; `jsonify(resp)` (src line 199) is 200. -/
def ConvResponse.status : ConvResponse → ℕ
  | .ok _ => 200
  | .err e => e.status

/-- Lexicographic comparison of two character lists by code point. -/
def lexLeCh : List Char → List Char → Bool
  | [], _ => true
  | _ :: _, [] => false
  | c :: cs, d :: ds => if c < d then true else if c = d then lexLeCh cs ds else false

/-- Python string comparison `a <= b`: lexicographic on code points. -/
def lexLe (a b : String) : Bool :=
  lexLeCh a.data b.data

/-- Insert into a `lexLe`-sorted list, keeping earlier equal elements first. -/
def insertSorted (a : String) : List String → List String
  | [] => [a]
  | b :: bs => if lexLe a b then a :: b :: bs else b :: insertSorted a bs

/-- Python `sorted` on a list of strings (a stable comparison sort, modelled
by insertion sort so that it reduces in the kernel). -/
def pySorted (l : List String) : List String :=
  l.foldr insertSorted []

/-- The list `sorted(list(ALLOWED_UNITS.keys()))` as built at src lines 138 and 140. -/
def allowed_units_sorted : List String :=
  pySorted (ALLOWED_UNITS.map Prod.fst)

/-- The dispatch table of the handler (src lines 156–188): identity inside a
category, the six formulas, the per-category "Unsupported … conversion pair"
fallbacks, and the final "Unhandled unit type" branch.  The helpers are total
on ℚ (division by the non-zero literal constants), so the `except` wrapper at
src lines 187–188 can never fire and is not represented. -/
def dispatch (from_type from_unit to_unit : String) (value_num : ℚ) :
    Except ConvErr ℚ :=
  if from_type = "length" then
    if from_unit = to_unit then .ok value_num
    else if from_unit = "mi" ∧ to_unit = "km" then .ok (miles_to_km value_num)
    else if from_unit = "km" ∧ to_unit = "mi" then .ok (km_to_miles value_num)
    else .error .unsupportedLengthPair
  else if from_type = "weight" then
    if from_unit = to_unit then .ok value_num
    else if from_unit = "lb" ∧ to_unit = "kg" then .ok (lb_to_kg value_num)
    else if from_unit = "kg" ∧ to_unit = "lb" then .ok (kg_to_lb value_num)
    else .error .unsupportedWeightPair
  else if from_type = "temperature" then
    if from_unit = to_unit then .ok value_num
    else if from_unit = "c" ∧ to_unit = "f" then .ok (c_to_f value_num)
    else if from_unit = "f" ∧ to_unit = "c" then .ok (f_to_c value_num)
    else .error .unsupportedTemperaturePair
  else .error .unhandledUnitType

/-- The `convert` handler body (src lines 113–199), from the point where the
three fields have been extracted from the JSON body.  The checks appear in
source order: value coercion (119–122), unit string shape (125–128), stripping
(130–131), registry membership (134–140), category match (142–144),
normalization (146–150), the negativity constraint (152–154), dispatch
(156–188), rounding and response assembly (190–199).  Note that `resp` echoes
the *stripped* unit strings, because lines 130–131 overwrite the raw ones. -/
def convert (value from_unit_raw to_unit_raw : JVal) : ConvResponse :=
  match pyFloat value with
  | none => .err (.valueNotNumber value)
  | some value_num =>
    match from_unit_raw with
    | .str fs =>
      if pyStrip fs = "" then .err (.invalidFromUnit from_unit_raw)
      else
        match to_unit_raw with
        | .str ts =>
          if pyStrip ts = "" then .err (.invalidToUnit to_unit_raw)
          else
            let fu := pyStrip fs
            let tu := pyStrip ts
            match get_unit_type fu, get_unit_type tu with
            | none, _ => .err (.unknownFromUnit fu allowed_units_sorted)
            | some _, none => .err (.unknownToUnit tu allowed_units_sorted)
            | some from_type, some to_type =>
              if from_type ≠ to_type then
                .err (.categoryMismatch from_type to_type fu tu)
              else
                match normalize fu, normalize tu with
                | some from_unit, some to_unit =>
                  if (from_type = "length" ∨ from_type = "weight") ∧ value_num < 0 then
                    .err (.negativeValue from_type value_num)
                  else
                    match dispatch from_type from_unit to_unit value_num with
                    | .error e => .err e
                    | .ok converted =>
                      .ok ⟨value_num, fu, round6 converted, tu, from_type⟩
                | _, _ => .err (.normalizationFailed fu tu)
        | _ => .err (.invalidToUnit to_unit_raw)
    | _ => .err (.invalidFromUnit from_unit_raw)

/-- The `converted_value` field of a successful response. -/
def convertedValue : ConvResponse → Option ℚ
  | .ok r => some r.converted_value
  | .err _ => none

/-- The `conversion_type` field of a successful response. -/
def conversionType : ConvResponse → Option String
  | .ok r => some r.conversion_type
  | .err _ => none

/-- Whether a response comes from one of the four dispatch fallback branches
(the three "Unsupported … conversion pair" branches and "Unhandled unit
type"). -/
def isFallback : ConvResponse → Bool
  | .err .unsupportedLengthPair => true
  | .err .unsupportedWeightPair => true
  | .err .unsupportedTemperaturePair => true
  | .err .unhandledUnitType => true
  | _ => false

/-- Whether a response is the "value must be a number" error. -/
def isValueError : ConvResponse → Bool
  | .err (.valueNotNumber _) => true
  | _ => false

/-- The category a canonical code belongs to (derived from the two registry
dictionaries; `registry_consistent` below proves it agrees with them). -/
def catOfCode (c : String) : String :=
  if c = "mi" ∨ c = "km" then "length"
  else if c = "lb" ∨ c = "kg" then "weight"
  else "temperature"

/-- The spec's conversion formulas (spec §4.2 step 6), written from the spec
text, to be compared with the code's dispatch: mi→km multiplies by 1.609344,
km→mi divides by 1.609344, lb→kg multiplies by 0.45359237, kg→lb divides by
0.45359237, c→f is value × 9/5 + 32, f→c is (value − 32) × 5/9. -/
def specConvert (a b : String) (v : ℚ) : ℚ :=
  if a = "mi" ∧ b = "km" then v * 1.609344
  else if a = "km" ∧ b = "mi" then v / 1.609344
  else if a = "lb" ∧ b = "kg" then v * 0.45359237
  else if a = "kg" ∧ b = "lb" then v / 0.45359237
  else if a = "c" ∧ b = "f" then v * 9 / 5 + 32
  else if a = "f" ∧ b = "c" then (v - 32) * 5 / 9
  else v

/-- The closed set of canonical codes produced by the registry. -/
def isCode (a : String) : Prop :=
  a = "mi" ∨ a = "km" ∨ a = "lb" ∨ a = "kg" ∨ a = "c" ∨ a = "f"

example : pyStrip "  MILES " = "MILES" := by decide

example : pyLower "MILES" = "miles" := by decide

example : get_unit_type "  KM  " = none := by decide

example : get_unit_type "KM" = some "length" := by decide

example : normalize "Kilometres" = some "km" := by decide

/-- A successful association-list lookup comes from an entry of the list. -/
theorem lookup_mem {α β : Type} [BEq α] [LawfulBEq α] :
    ∀ {l : List (α × β)} {k : α} {v : β}, l.lookup k = some v → (k, v) ∈ l := by
  intro l
  induction l with
  | nil => intro k v h; simp [List.lookup] at h
  | cons p t ih =>
    intro k v h
    obtain ⟨pk, pv⟩ := p
    rw [List.lookup] at h
    cases hk : k == pk with
    | true =>
      rw [hk] at h
      obtain rfl : pv = v := by simpa using h
      obtain rfl : k = pk := by simpa using hk
      exact List.mem_cons_self _ _
    | false =>
      rw [hk] at h
      exact List.mem_cons_of_mem _ (ih h)

/-- An association-list lookup succeeds exactly on the keys of the list. -/
theorem lookup_isSome_iff {α β : Type} [BEq α] [LawfulBEq α] :
    ∀ {l : List (α × β)} {k : α}, (l.lookup k).isSome ↔ k ∈ l.map Prod.fst := by
  intro l
  induction l with
  | nil => intro k; simp [List.lookup]
  | cons p t ih =>
    intro k
    obtain ⟨pk, pv⟩ := p
    rw [List.lookup]
    cases hk : k == pk with
    | true =>
      obtain rfl : k = pk := by simpa using hk
      simp
    | false =>
      have : ¬k = pk := by simpa using hk
      simp [ih, this]

/-- The two registry dictionaries are consistent: a key with a canonical code
has the category `catOfCode` assigns to that code, and every canonical code is
one of the six. -/
theorem normalize_consistent {k a : String} (h : NORMALIZE.lookup k = some a) :
    ALLOWED_UNITS.lookup k = some (catOfCode a) ∧
      (a = "mi" ∨ a = "km" ∨ a = "lb" ∨ a = "kg" ∨ a = "c" ∨ a = "f") := by
  have hm := lookup_mem h
  fin_cases hm <;> decide

/-- The two dictionaries have exactly the same keys. -/
theorem allowed_isSome_iff_normalize {k : String} :
    (ALLOWED_UNITS.lookup k).isSome ↔ (NORMALIZE.lookup k).isSome := by
  rw [lookup_isSome_iff, lookup_isSome_iff]
  constructor <;> intro h <;> fin_cases h <;> decide

/-- Conversely, every key of `ALLOWED_UNITS` has a canonical code whose
`catOfCode` is its category. -/
theorem allowed_consistent {k cat : String} (h : ALLOWED_UNITS.lookup k = some cat) :
    ∃ a, NORMALIZE.lookup k = some a ∧ catOfCode a = cat := by
  have hs : (NORMALIZE.lookup k).isSome := by
    rw [← allowed_isSome_iff_normalize, h]
    rfl
  obtain ⟨a, ha⟩ := Option.isSome_iff_exists.mp hs
  refine ⟨a, ha, ?_⟩
  have h2 : some cat = some (catOfCode a) := h.symm.trans (normalize_consistent ha).1
  exact (Option.some.inj h2).symm

/-- Fact: `normalize` determines `get_unit_type` through `catOfCode`. -/
theorem get_unit_type_of_normalize {s a : String} (h : normalize s = some a) :
    get_unit_type s = some (catOfCode a) := by
  exact (normalize_consistent h).1

/-- A spelling with a canonical code is non-empty after stripping. -/
theorem strip_ne_empty_of_normalize {s a : String} (h : normalize (pyStrip s) = some a) :
    ¬pyStrip s = "" := by
  intro he
  rw [he] at h
  have hn : normalize "" = none := by decide
  rw [hn] at h
  exact Option.noConfusion h

/-- Every canonical code `normalize` can produce is one of the six. -/
theorem normalize_isCode {s a : String} (h : normalize s = some a) : isCode a :=
  (normalize_consistent h).2

/-- Identity dispatch: when both canonical codes agree the handler returns the
value unchanged, whatever the code. -/
theorem dispatch_identity (a : String) (v : ℚ) :
    dispatch (catOfCode a) a a v = .ok v := by
  have h3 : catOfCode a = "length" ∨ catOfCode a = "weight" ∨
      catOfCode a = "temperature" := by
    unfold catOfCode
    split_ifs <;> simp
  rcases h3 with h | h | h <;> rw [h] <;> simp [dispatch]

/-- On distinct same-category canonical codes, the dispatch table computes
exactly the spec's formula for that code pair. -/
theorem dispatch_eq_spec {a b : String} (ha : isCode a) (hb : isCode b)
    (hcat : catOfCode a = catOfCode b) (hne : a ≠ b) (v : ℚ) :
    dispatch (catOfCode a) a b v = .ok (specConvert a b v) := by
  rcases ha with rfl | rfl | rfl | rfl | rfl | rfl <;>
    rcases hb with rfl | rfl | rfl | rfl | rfl | rfl <;>
      first
        | exact absurd rfl hne
        | exact absurd hcat (by decide)
        | simp [dispatch, specConvert, catOfCode, miles_to_km, km_to_miles,
            lb_to_kg, kg_to_lb, c_to_f, f_to_c]

/-- Dispatch never reaches a fallback branch on registry codes of a matching
category. -/
theorem dispatch_no_fallback {a b : String} (ha : isCode a) (hb : isCode b)
    (hcat : catOfCode a = catOfCode b) (v : ℚ) :
    ∃ c, dispatch (catOfCode a) a b v = .ok c := by
  by_cases hne : a = b
  · subst hne
    exact ⟨v, dispatch_identity a v⟩
  · exact ⟨specConvert a b v, dispatch_eq_spec ha hb hcat hne v⟩

/-- Happy-path characterization of the handler: when the value coerces, both
units are strings whose stripped forms normalize, the categories match, and
the negativity constraint is satisfied, `convert` reduces to its dispatch
table followed by rounding and response assembly. -/
theorem convert_valid (value : JVal) (v : ℚ) (fs ts a b : String)
    (hv : pyFloat value = some v)
    (ha : normalize (pyStrip fs) = some a)
    (hb : normalize (pyStrip ts) = some b)
    (hcat : catOfCode a = catOfCode b)
    (hneg : ¬((catOfCode a = "length" ∨ catOfCode a = "weight") ∧ v < 0)) :
    convert value (.str fs) (.str ts) =
      match dispatch (catOfCode a) a b v with
      | .ok c => .ok ⟨v, pyStrip fs, round6 c, pyStrip ts, catOfCode a⟩
      | .error e => .err e := by
  have hfa := get_unit_type_of_normalize ha
  have hfb := get_unit_type_of_normalize hb
  have hfs := strip_ne_empty_of_normalize ha
  have hts := strip_ne_empty_of_normalize hb
  unfold convert
  rw [hv]
  simp only [if_neg hfs, if_neg hts]
  rw [hfa, hfb]
  simp only [if_neg (not_not_intro hcat)]
  rw [ha, hb]
  simp only [if_neg hneg]
  cases dispatch (catOfCode a) a b v <;> rfl

/-- Rounding to six decimal places moves a value by at most 5·10⁻⁷. -/
theorem round6_err (q : ℚ) : |round6 q - q| ≤ 1 / 2000000 := by
  have h : |((round (q * 1000000) : ℤ) : ℚ) - q * 1000000| ≤ 1 / 2 := by
    rw [abs_sub_comm]
    exact abs_sub_round (q * 1000000)
  have e : round6 q - q = (((round (q * 1000000) : ℤ) : ℚ) - q * 1000000) / 1000000 := by
    unfold round6
    ring
  rw [e, abs_div, abs_of_pos (show (0 : ℚ) < 1000000 by norm_num)]
  linarith

/-- If `|y| < 3/2` then the integer nearest to `y` is −1, 0, or 1. -/
theorem abs_round_le_one {y : ℚ} (h : |y| < 3 / 2) : |((round y : ℤ) : ℚ)| ≤ 1 := by
  rw [abs_lt] at h
  have h1 : round y ≤ 1 := by
    have : ⌊y + 1 / 2⌋ < 2 := by
      rw [Int.floor_lt]
      push_cast
      linarith
    rw [round_eq]
    omega
  have h2 : (-1 : ℤ) ≤ round y := by
    have : (-1 : ℤ) ≤ ⌊y + 1 / 2⌋ := by
      rw [Int.le_floor]
      push_cast
      linarith
    rw [round_eq]
    omega
  rw [abs_le]
  constructor
  · exact_mod_cast h2
  · exact_mod_cast h1

/-- Round-trip rounding bound: start from a value with at most six decimal
places, apply an affine map with slope `p`, round to six decimals, invert the
map exactly, and round again; if the inverse slope is below 3 in absolute
value, the result is within 10⁻⁶ of the start. -/
theorem roundtrip_bound (p q : ℚ) (m : ℤ) (hp : p ≠ 0) (hslope : |1 / p| < 3) :
    |round6 ((round6 (p * ((m : ℚ) / 1000000) + q) - q) / p) - (m : ℚ) / 1000000| ≤
      1 / 1000000 := by
  set v : ℚ := (m : ℚ) / 1000000 with hv
  set w : ℚ := p * v + q with hw
  set e : ℚ := round6 w - w with he
  have he2 : |e| ≤ 1 / 2000000 := round6_err w
  have hx : (round6 w - q) / p = v + e / p := by
    have h1 : round6 w - q = p * v + e := by
      rw [he, hw]
      ring
    rw [h1]
    field_simp
    ring
  rw [hx]
  have hy : (v + e / p) * 1000000 = (m : ℚ) + e / p * 1000000 := by
    rw [hv]
    field_simp
    ring
  have hr : round ((v + e / p) * 1000000) = m + round (e / p * 1000000) := by
    rw [hy, round_int_add]
  have hybound : |e / p * 1000000| < 3 / 2 := by
    have hninety : e / p * 1000000 = e * (1 / p) * 1000000 := by ring
    rw [hninety, abs_mul, abs_mul, abs_of_pos (show (0 : ℚ) < 1000000 by norm_num)]
    have hm1 : |e| * |1 / p| ≤ 1 / 2000000 * |1 / p| :=
      mul_le_mul_of_nonneg_right he2 (abs_nonneg (1 / p))
    have hm2 : 1 / 2000000 * |1 / p| < 1 / 2000000 * 3 := by
      have := abs_nonneg (1 / p)
      linarith
    linarith
  have hround : |((round (e / p * 1000000) : ℤ) : ℚ)| ≤ 1 := abs_round_le_one hybound
  unfold round6
  rw [hr]
  have hfin : (((m + round (e / p * 1000000) : ℤ) : ℚ)) / 1000000 - v =
      ((round (e / p * 1000000) : ℤ) : ℚ) / 1000000 := by
    rw [hv]
    push_cast
    ring
  rw [hfin, abs_div, abs_of_pos (show (0 : ℚ) < 1000000 by norm_num)]
  linarith

/-- Evaluation rule for `round6` at a concrete value: `round6 x = n/10⁶` as
soon as `n ≤ x·10⁶ + 1/2 < n + 1`. -/
theorem round6_eq (x : ℚ) (n : ℤ) (h1 : (n : ℚ) ≤ x * 1000000 + 1 / 2)
    (h2 : x * 1000000 + 1 / 2 < (n : ℚ) + 1) : round6 x = (n : ℚ) / 1000000 := by
  unfold round6
  rw [round_eq]
  have hfl : ⌊x * 1000000 + 1 / 2⌋ = n := by
    rw [Int.floor_eq_iff]
    · exact ⟨h1, by linarith⟩
  rw [hfl]

/-- Rounding to six decimal places preserves non-negativity. -/
theorem round6_nonneg {q : ℚ} (h : 0 ≤ q) : 0 ≤ round6 q := by
  unfold round6
  apply div_nonneg _ (by norm_num)
  have hz : (0 : ℤ) ≤ round (q * 1000000) := by
    rw [round_eq, Int.le_floor]
    linarith
  exact_mod_cast hz

/-- Multiplicative specialization of `roundtrip_bound`. -/
theorem roundtrip_mul (r : ℚ) (m : ℤ) (hr : r ≠ 0) (hslope : |1 / r| < 3) :
    |round6 (round6 ((m : ℚ) / 1000000 * r) / r) - (m : ℚ) / 1000000| ≤
      1 / 1000000 := by
  have h := roundtrip_bound r 0 m hr hslope
  simpa [mul_comm] using h

/-- Claim C1: for every request that passes all validation (numeric value,
recognized units of the same category) with distinct canonical codes, the
converted value before rounding equals the spec's formula for that code pair
(mi→km ×1.609344, km→mi ÷1.609344, lb→kg ×0.45359237, kg→lb ÷0.45359237,
c→f v×9/5+32, f→c (v−32)×5/9). -/
theorem claim_C1 (value : JVal) (v : ℚ) (fs ts a b : String)
    (hv : pyFloat value = some v)
    (ha : normalize (pyStrip fs) = some a)
    (hb : normalize (pyStrip ts) = some b)
    (hcat : catOfCode a = catOfCode b)
    (hne : a ≠ b)
    (hneg : ¬((catOfCode a = "length" ∨ catOfCode a = "weight") ∧ v < 0)) :
    convert value (.str fs) (.str ts) =
      .ok ⟨v, pyStrip fs, round6 (specConvert a b v), pyStrip ts, catOfCode a⟩ := by
  rw [convert_valid value v fs ts a b hv ha hb hcat hneg,
    dispatch_eq_spec (normalize_isCode ha) (normalize_isCode hb) hcat hne v]

/-- Witness for C1: 5 miles convert to 8.04672 km. -/
theorem claim_C1_witness :
    convert (.num 5) (.str "mi") (.str "km") =
      .ok ⟨5, "mi", 8.04672, "km", "length"⟩ := by
  have h := claim_C1 (.num 5) 5 "mi" "km" "mi" "km" rfl (by decide) (by decide)
    (by decide) (by decide) (by norm_num)
  rw [h]
  have hs : specConvert "mi" "km" 5 = 8.04672 := by norm_num [specConvert]
  have hr : round6 (8.04672 : ℚ) = ((8046720 : ℤ) : ℚ) / 1000000 :=
    round6_eq _ 8046720 (by norm_num) (by norm_num)
  rw [hs, hr]
  norm_num
  exact ⟨by decide, by decide, by decide⟩

/-- Claim C2: converting a value from a unit to itself — including via two
different spellings with the same canonical code — returns it unchanged up to
rounding to six decimal places. -/
theorem claim_C2 (value : JVal) (v : ℚ) (fs ts c : String)
    (hv : pyFloat value = some v)
    (ha : normalize (pyStrip fs) = some c)
    (hb : normalize (pyStrip ts) = some c)
    (hneg : ¬((catOfCode c = "length" ∨ catOfCode c = "weight") ∧ v < 0)) :
    convert value (.str fs) (.str ts) =
      .ok ⟨v, pyStrip fs, round6 v, pyStrip ts, catOfCode c⟩ ∧
    |round6 v - v| ≤ 1 / 2000000 := by
  constructor
  · rw [convert_valid value v fs ts c c hv ha hb rfl hneg, dispatch_identity]
  · exact round6_err v

/-- Witness for C2: 5 "KM" to "kilometres" (two spellings of the same code)
returns 5 unchanged. -/
theorem claim_C2_witness :
    convert (.num 5) (.str "KM") (.str "kilometres") =
      .ok ⟨5, "KM", 5, "kilometres", "length"⟩ := by
  have h := (claim_C2 (.num 5) 5 "KM" "kilometres" "km" rfl (by decide) (by decide)
    (by norm_num)).1
  rw [h]
  have hr : round6 (5 : ℚ) = ((5000000 : ℤ) : ℚ) / 1000000 :=
    round6_eq _ 5000000 (by norm_num) (by norm_num)
  rw [hr]
  norm_num
  exact ⟨by decide, by decide, by decide⟩

/-- Happy-path corollary of `convert_valid` with the dispatch result given. -/
theorem convert_valid_ok (value : JVal) (v c : ℚ) (fs ts a b : String)
    (hv : pyFloat value = some v)
    (ha : normalize (pyStrip fs) = some a)
    (hb : normalize (pyStrip ts) = some b)
    (hcat : catOfCode a = catOfCode b)
    (hneg : ¬((catOfCode a = "length" ∨ catOfCode a = "weight") ∧ v < 0))
    (hd : dispatch (catOfCode a) a b v = .ok c) :
    convert value (.str fs) (.str ts) =
      .ok ⟨v, pyStrip fs, round6 c, pyStrip ts, catOfCode a⟩ := by
  rw [convert_valid value v fs ts a b hv ha hb hcat hneg, hd]

/-- Round trip at the handler level for a multiplicative pair (the length and
weight pairs): A→B multiplies by `r`, B→A divides by `r`. -/
theorem convert_roundtrip_mul (A B a b : String) (r : ℚ) (m : ℤ)
    (hA : normalize (pyStrip A) = some a) (hB : normalize (pyStrip B) = some b)
    (hcat : catOfCode a = catOfCode b)
    (hdab : ∀ u : ℚ, dispatch (catOfCode a) a b u = .ok (u * r))
    (hdba : ∀ u : ℚ, dispatch (catOfCode b) b a u = .ok (u / r))
    (hr0 : 0 < r) (hslope : |1 / r| < 3) (hm : 0 ≤ m) :
    ∃ r1 r2 : ConvOk,
      convert (.num ((m : ℚ) / 1000000)) (.str A) (.str B) = .ok r1 ∧
      convert (.num r1.converted_value) (.str B) (.str A) = .ok r2 ∧
      |r2.converted_value - (m : ℚ) / 1000000| ≤ 1 / 1000000 := by
  have hv0 : (0 : ℚ) ≤ (m : ℚ) / 1000000 :=
    div_nonneg (by exact_mod_cast hm) (by norm_num)
  have hneg1 : ¬((catOfCode a = "length" ∨ catOfCode a = "weight") ∧
      (m : ℚ) / 1000000 < 0) := fun h => absurd h.2 (not_lt.mpr hv0)
  have h1 := convert_valid_ok (.num ((m : ℚ) / 1000000)) ((m : ℚ) / 1000000)
    ((m : ℚ) / 1000000 * r) A B a b rfl hA hB hcat hneg1 (hdab _)
  have hcv0 : 0 ≤ round6 ((m : ℚ) / 1000000 * r) :=
    round6_nonneg (mul_nonneg hv0 (le_of_lt hr0))
  have hneg2 : ¬((catOfCode b = "length" ∨ catOfCode b = "weight") ∧
      round6 ((m : ℚ) / 1000000 * r) < 0) := fun h => absurd h.2 (not_lt.mpr hcv0)
  have h2 := convert_valid_ok (.num (round6 ((m : ℚ) / 1000000 * r)))
    (round6 ((m : ℚ) / 1000000 * r)) (round6 ((m : ℚ) / 1000000 * r) / r)
    B A b a rfl hB hA hcat.symm hneg2 (hdba _)
  exact ⟨_, _, h1, h2, roundtrip_mul r m (ne_of_gt hr0) hslope⟩

/-- Round trip at the handler level for an affine temperature pair: A→B is
`u ↦ p·u + q`, B→A is `u ↦ (u − q)/p`. -/
theorem convert_roundtrip_affine (A B a b : String) (p q : ℚ) (m : ℤ)
    (hA : normalize (pyStrip A) = some a) (hB : normalize (pyStrip B) = some b)
    (hcat : catOfCode a = catOfCode b)
    (htA : catOfCode a = "temperature")
    (hdab : ∀ u : ℚ, dispatch (catOfCode a) a b u = .ok (p * u + q))
    (hdba : ∀ u : ℚ, dispatch (catOfCode b) b a u = .ok ((u - q) / p))
    (hp : p ≠ 0) (hslope : |1 / p| < 3) :
    ∃ r1 r2 : ConvOk,
      convert (.num ((m : ℚ) / 1000000)) (.str A) (.str B) = .ok r1 ∧
      convert (.num r1.converted_value) (.str B) (.str A) = .ok r2 ∧
      |r2.converted_value - (m : ℚ) / 1000000| ≤ 1 / 1000000 := by
  have htB : catOfCode b = "temperature" := hcat ▸ htA
  have hneg1 : ¬((catOfCode a = "length" ∨ catOfCode a = "weight") ∧
      (m : ℚ) / 1000000 < 0) := by
    rw [htA]
    rintro ⟨h | h, _⟩ <;> exact absurd h (by decide)
  have hneg2 : ¬((catOfCode b = "length" ∨ catOfCode b = "weight") ∧
      round6 (p * ((m : ℚ) / 1000000) + q) < 0) := by
    rw [htB]
    rintro ⟨h | h, _⟩ <;> exact absurd h (by decide)
  have h1 := convert_valid_ok (.num ((m : ℚ) / 1000000)) ((m : ℚ) / 1000000)
    (p * ((m : ℚ) / 1000000) + q) A B a b rfl hA hB hcat hneg1 (hdab _)
  have h2 := convert_valid_ok (.num (round6 (p * ((m : ℚ) / 1000000) + q)))
    (round6 (p * ((m : ℚ) / 1000000) + q))
    ((round6 (p * ((m : ℚ) / 1000000) + q) - q) / p)
    B A b a rfl hB hA hcat.symm hneg2 (hdba _)
  exact ⟨_, _, h1, h2, roundtrip_bound p q m hp hslope⟩

/-- Counterexample to claim C3 as stated: 0.0000059 lb→kg gives 0.000003 kg
(rounded), and 0.000003 kg→lb gives 0.000007 lb, which differs from the
original value by 1.1·10⁻⁶ > 10⁻⁶. -/
theorem claim_C3_counterexample :
    convert (.num (59 / 10000000)) (.str "lb") (.str "kg") =
      .ok ⟨59 / 10000000, "lb", 3 / 1000000, "kg", "weight"⟩ ∧
    convert (.num (3 / 1000000)) (.str "kg") (.str "lb") =
      .ok ⟨3 / 1000000, "kg", 7 / 1000000, "lb", "weight"⟩ ∧
    1 / 1000000 < |(7 : ℚ) / 1000000 - 59 / 10000000| := by
  refine ⟨?_, ?_, ?_⟩
  · have h := convert_valid_ok (.num (59 / 10000000)) (59 / 10000000)
      (lb_to_kg (59 / 10000000)) "lb" "kg" "lb" "kg" rfl (by decide) (by decide)
      (by decide) (by norm_num [catOfCode]) (by simp [dispatch, catOfCode])
    rw [h]
    have hr : round6 (lb_to_kg (59 / 10000000)) = ((3 : ℤ) : ℚ) / 1000000 :=
      round6_eq _ 3 (by norm_num [lb_to_kg]) (by norm_num [lb_to_kg])
    rw [hr]
    norm_num
    exact ⟨by decide, by decide, by decide⟩
  · have h := convert_valid_ok (.num (3 / 1000000)) (3 / 1000000)
      (kg_to_lb (3 / 1000000)) "kg" "lb" "kg" "lb" rfl (by decide) (by decide)
      (by decide) (by norm_num [catOfCode]) (by simp [dispatch, catOfCode])
    rw [h]
    have hr : round6 (kg_to_lb (3 / 1000000)) = ((7 : ℤ) : ℚ) / 1000000 :=
      round6_eq _ 7 (by norm_num [kg_to_lb]) (by norm_num [kg_to_lb])
    rw [hr]
    norm_num
    exact ⟨by decide, by decide, by decide⟩
  · have he : (7 : ℚ) / 1000000 - 59 / 10000000 = 11 / 10000000 := by norm_num
    rw [he, abs_of_pos (by norm_num)]
    norm_num

/-- Claim C3 amended: the round-trip property holds for every value with at
most six decimal places (a multiple of 10⁻⁶; the counterexample above shows
it fails for finer-grained values): converting A→B and back B→A lands within
10⁻⁶ of the original. -/
theorem claim_C3_amended (a b : String) (m : ℤ)
    (hpair : (a, b) ∈ [("mi", "km"), ("km", "mi"), ("lb", "kg"), ("kg", "lb"),
      ("c", "f"), ("f", "c")])
    (hadm : (catOfCode a = "length" ∨ catOfCode a = "weight") → 0 ≤ m) :
    ∃ r1 r2 : ConvOk,
      convert (.num ((m : ℚ) / 1000000)) (.str a) (.str b) = .ok r1 ∧
      convert (.num r1.converted_value) (.str b) (.str a) = .ok r2 ∧
      |r2.converted_value - (m : ℚ) / 1000000| ≤ 1 / 1000000 := by
  simp only [List.mem_cons, List.not_mem_nil, or_false, Prod.mk.injEq] at hpair
  rcases hpair with ⟨rfl, rfl⟩ | ⟨rfl, rfl⟩ | ⟨rfl, rfl⟩ | ⟨rfl, rfl⟩ |
    ⟨rfl, rfl⟩ | ⟨rfl, rfl⟩
  · exact convert_roundtrip_mul "mi" "km" "mi" "km" 1.609344 m (by decide)
      (by decide) (by decide)
      (fun u => by simp [dispatch, catOfCode, miles_to_km])
      (fun u => by simp [dispatch, catOfCode, km_to_miles])
      (by norm_num) (by rw [abs_of_pos] <;> norm_num) (hadm (Or.inl (by decide)))
  · exact convert_roundtrip_mul "km" "mi" "km" "mi" (1 / 1.609344) m (by decide)
      (by decide) (by decide)
      (fun u => by
        have he : u * (1 / 1.609344) = km_to_miles u := by
          unfold km_to_miles; ring
        rw [he]; simp [dispatch, catOfCode])
      (fun u => by
        have he : u / (1 / 1.609344) = miles_to_km u := by
          unfold miles_to_km; field_simp
        rw [he]; simp [dispatch, catOfCode])
      (by norm_num) (by rw [abs_of_pos] <;> norm_num) (hadm (Or.inl (by decide)))
  · exact convert_roundtrip_mul "lb" "kg" "lb" "kg" 0.45359237 m (by decide)
      (by decide) (by decide)
      (fun u => by simp [dispatch, catOfCode, lb_to_kg])
      (fun u => by simp [dispatch, catOfCode, kg_to_lb])
      (by norm_num) (by rw [abs_of_pos] <;> norm_num) (hadm (Or.inr (by decide)))
  · exact convert_roundtrip_mul "kg" "lb" "kg" "lb" (1 / 0.45359237) m (by decide)
      (by decide) (by decide)
      (fun u => by
        have he : u * (1 / 0.45359237) = kg_to_lb u := by
          unfold kg_to_lb; ring
        rw [he]; simp [dispatch, catOfCode])
      (fun u => by
        have he : u / (1 / 0.45359237) = lb_to_kg u := by
          unfold lb_to_kg; field_simp
        rw [he]; simp [dispatch, catOfCode])
      (by norm_num) (by rw [abs_of_pos] <;> norm_num) (hadm (Or.inr (by decide)))
  · exact convert_roundtrip_affine "c" "f" "c" "f" (9 / 5) 32 m (by decide)
      (by decide) (by decide) (by decide)
      (fun u => by
        have he : (9 : ℚ) / 5 * u + 32 = c_to_f u := by
          unfold c_to_f; ring
        rw [he]; simp [dispatch, catOfCode])
      (fun u => by
        have he : (u - 32) / ((9 : ℚ) / 5) = f_to_c u := by
          unfold f_to_c; ring
        rw [he]; simp [dispatch, catOfCode])
      (by norm_num) (by rw [abs_of_pos] <;> norm_num)
  · exact convert_roundtrip_affine "f" "c" "f" "c" (5 / 9) (-(160 / 9)) m
      (by decide) (by decide) (by decide) (by decide)
      (fun u => by
        have he : (5 : ℚ) / 9 * u + -(160 / 9) = f_to_c u := by
          unfold f_to_c; ring
        rw [he]; simp [dispatch, catOfCode])
      (fun u => by
        have he : (u - -(160 / 9 : ℚ)) / (5 / 9) = c_to_f u := by
          unfold c_to_f; ring
        rw [he]; simp [dispatch, catOfCode])
      (by norm_num) (by rw [abs_of_pos] <;> norm_num)

/-- Witness for the amended C3: the temperature pair at value −10. -/
theorem claim_C3_amended_witness :
    ∃ r1 r2 : ConvOk,
      convert (.num ((((-10000000 : ℤ)) : ℚ) / 1000000)) (.str "c") (.str "f") = .ok r1 ∧
      convert (.num r1.converted_value) (.str "f") (.str "c") = .ok r2 ∧
      |r2.converted_value - (((-10000000 : ℤ)) : ℚ) / 1000000| ≤ 1 / 1000000 := by
  exact claim_C3_amended "c" "f" (-10000000) (by decide)
    (by rintro (h | h) <;> exact absurd h (by decide))

/-- Claim C4: for units of category length or weight a negative value is
rejected with the domain-constraint error and HTTP 400, while temperature
admits negatives: −10 celsius→fahrenheit succeeds with HTTP 200 and
converted value 14. -/
theorem claim_C4 :
    (∀ (value : JVal) (v : ℚ) (fs ts cat : String),
      pyFloat value = some v → v < 0 →
      get_unit_type (pyStrip fs) = some cat →
      get_unit_type (pyStrip ts) = some cat →
      (cat = "length" ∨ cat = "weight") →
      convert value (.str fs) (.str ts) = .err (.negativeValue cat v) ∧
        (convert value (.str fs) (.str ts)).status = 400) ∧
    convert (.num (-10)) (.str "celsius") (.str "fahrenheit") =
      .ok ⟨-10, "celsius", 14, "fahrenheit", "temperature"⟩ ∧
    (convert (.num (-10)) (.str "celsius") (.str "fahrenheit")).status = 200 := by
  refine ⟨?_, ?_, ?_⟩
  case _ =>
    intro value v fs ts cat hv hneg hfa hfb hcats
    obtain ⟨a, ha0, hca⟩ := allowed_consistent hfa
    obtain ⟨b, hb0, hcb⟩ := allowed_consistent hfb
    have ha : normalize (pyStrip fs) = some a := ha0
    have hb : normalize (pyStrip ts) = some b := hb0
    have hfsne := strip_ne_empty_of_normalize ha
    have htsne := strip_ne_empty_of_normalize hb
    have hmain : convert value (.str fs) (.str ts) = .err (.negativeValue cat v) := by
      unfold convert
      rw [hv]
      simp only [if_neg hfsne, if_neg htsne]
      rw [hfa, hfb]
      simp only [if_neg (not_not_intro rfl)]
      rw [ha, hb]
      have hcond : (cat = "length" ∨ cat = "weight") ∧ v < 0 := ⟨hcats, hneg⟩
      simp only [if_pos hcond]
    exact ⟨hmain, by rw [hmain]; rfl⟩
  case _ =>
    have h := convert_valid_ok (.num (-10)) (-10) (c_to_f (-10)) "celsius"
      "fahrenheit" "c" "f" rfl (by decide) (by decide) (by decide)
      (fun hh => absurd hh.1 (by decide)) (by simp [dispatch, catOfCode])
    rw [h]
    have hr : round6 (c_to_f (-10)) = ((14000000 : ℤ) : ℚ) / 1000000 :=
      round6_eq _ 14000000 (by norm_num [c_to_f]) (by norm_num [c_to_f])
    rw [hr]
    norm_num
    exact ⟨by decide, by decide, by decide⟩
  case _ =>
    have h := convert_valid_ok (.num (-10)) (-10) (c_to_f (-10)) "celsius"
      "fahrenheit" "c" "f" rfl (by decide) (by decide) (by decide)
      (fun hh => absurd hh.1 (by decide)) (by simp [dispatch, catOfCode])
    rw [h]
    rfl

/-- Witness for C4: −5 mi→km is rejected with the negative-value error, 400. -/
theorem claim_C4_witness :
    convert (.num (-5)) (.str "mi") (.str "km") =
      .err (.negativeValue "length" (-5)) ∧
    (convert (.num (-5)) (.str "mi") (.str "km")).status = 400 :=
  claim_C4.1 (.num (-5)) (-5) "mi" "km" "length" rfl (by norm_num)
    (by decide) (by decide) (Or.inl rfl)

/-- Membership in an insertion is membership in the parts. -/
theorem mem_insertSorted {x a : String} :
    ∀ {l : List String}, x ∈ insertSorted a l ↔ x = a ∨ x ∈ l := by
  intro l
  induction l with
  | nil => simp [insertSorted]
  | cons b bs ih =>
    by_cases h : lexLe a b
    · simp only [insertSorted, if_pos h, List.mem_cons]
    · simp only [insertSorted, if_neg h, List.mem_cons, ih]
      tauto

/-- `pySorted` permutes its input: same members. -/
theorem mem_pySorted {x : String} :
    ∀ {l : List String}, x ∈ pySorted l ↔ x ∈ l := by
  intro l
  induction l with
  | nil => simp [pySorted]
  | cons b bs ih =>
    rw [show pySorted (b :: bs) = insertSorted b (pySorted bs) from rfl,
      mem_insertSorted, ih, List.mem_cons]

/-- Claim C5: a request whose from_unit (or to_unit) is unknown to the
registry — case-insensitively, after stripping — is answered with the
unknown-unit error, HTTP 422, carrying `allowed_units`, which is the
non-empty sorted list of exactly the accepted spellings. -/
theorem claim_C5 :
    (∀ (value : JVal) (v : ℚ) (fs ts : String),
      pyFloat value = some v →
      ¬pyStrip fs = "" → ¬pyStrip ts = "" →
      get_unit_type (pyStrip fs) = none →
      convert value (.str fs) (.str ts) =
        .err (.unknownFromUnit (pyStrip fs) allowed_units_sorted) ∧
      (convert value (.str fs) (.str ts)).status = 422) ∧
    (∀ (value : JVal) (v : ℚ) (fs ts cat : String),
      pyFloat value = some v →
      ¬pyStrip fs = "" → ¬pyStrip ts = "" →
      get_unit_type (pyStrip fs) = some cat →
      get_unit_type (pyStrip ts) = none →
      convert value (.str fs) (.str ts) =
        .err (.unknownToUnit (pyStrip ts) allowed_units_sorted) ∧
      (convert value (.str fs) (.str ts)).status = 422) ∧
    allowed_units_sorted ≠ [] ∧
    List.Sorted (fun x y => lexLe x y = true) allowed_units_sorted ∧
    (∀ s : String, (get_unit_type s).isSome ↔ pyLower s ∈ allowed_units_sorted) := by
  refine ⟨?_, ?_, by decide, by decide, ?_⟩
  case _ =>
    intro value v fs ts hv hfsne htsne hunk
    have hmain : convert value (.str fs) (.str ts) =
        .err (.unknownFromUnit (pyStrip fs) allowed_units_sorted) := by
      unfold convert
      rw [hv]
      simp only [if_neg hfsne, if_neg htsne]
      rw [hunk]
    exact ⟨hmain, by rw [hmain]; rfl⟩
  case _ =>
    intro value v fs ts cat hv hfsne htsne hfa hunk
    have hmain : convert value (.str fs) (.str ts) =
        .err (.unknownToUnit (pyStrip ts) allowed_units_sorted) := by
      unfold convert
      rw [hv]
      simp only [if_neg hfsne, if_neg htsne]
      rw [hfa, hunk]
    exact ⟨hmain, by rw [hmain]; rfl⟩
  case _ =>
    intro s
    rw [show get_unit_type s = ALLOWED_UNITS.lookup (pyLower s) from rfl,
      lookup_isSome_iff]
    unfold allowed_units_sorted
    exact mem_pySorted.symm

/-- Witness for C5: from_unit "banana" is answered 422 with the allowed list. -/
theorem claim_C5_witness :
    convert (.num 5) (.str "banana") (.str "km") =
      .err (.unknownFromUnit "banana" allowed_units_sorted) ∧
    (convert (.num 5) (.str "banana") (.str "km")).status = 422 :=
  claim_C5.1 (.num 5) 5 "banana" "km" rfl (by decide) (by decide) (by decide)

/-- Counterexample to claim C6 as stated: on a request whose value is not
coercible (null) and whose from_unit is the empty string, the handler reports
the value error, not the unit error — the code checks the value (src lines
119–122) before the unit strings (src lines 125–128), the reverse of the
spec's order. -/
theorem claim_C6_counterexample :
    convert .null (.str "") (.str "km") = .err (.valueNotNumber .null) ∧
    (convert .null (.str "") (.str "km") == .err (.invalidFromUnit (.str ""))) = false := by
  exact ⟨rfl, by decide⟩

/-- Claim C6 amended: the value-coercibility check precedes the unit-string
checks; whenever the value fails to coerce the reported InvalidField error is
the value error, whatever the unit fields contain. -/
theorem claim_C6_amended (value fu tu : JVal) (h : pyFloat value = none) :
    convert value fu tu = .err (.valueNotNumber value) := by
  unfold convert
  rw [h]

/-- Witness for the amended C6. -/
theorem claim_C6_amended_witness :
    convert .null (.str "") (.str "banana") = .err (.valueNotNumber .null) :=
  claim_C6_amended .null (.str "") (.str "banana") rfl

/-- The negative-value branch of the handler, characterized. -/
theorem convert_neg (value : JVal) (v : ℚ) (fs ts a b : String)
    (hv : pyFloat value = some v)
    (ha : normalize (pyStrip fs) = some a)
    (hb : normalize (pyStrip ts) = some b)
    (hcat : catOfCode a = catOfCode b)
    (hneg : (catOfCode a = "length" ∨ catOfCode a = "weight") ∧ v < 0) :
    convert value (.str fs) (.str ts) = .err (.negativeValue (catOfCode a) v) := by
  unfold convert
  rw [hv]
  simp only [if_neg (strip_ne_empty_of_normalize ha),
    if_neg (strip_ne_empty_of_normalize hb)]
  rw [get_unit_type_of_normalize ha, get_unit_type_of_normalize hb]
  simp only [if_neg (not_not_intro hcat)]
  rw [ha, hb]
  simp only [if_pos hneg]

/-- The category-mismatch branch of the handler, characterized. -/
theorem convert_mismatch (value : JVal) (v : ℚ) (fs ts a b : String)
    (hv : pyFloat value = some v)
    (ha : normalize (pyStrip fs) = some a)
    (hb : normalize (pyStrip ts) = some b)
    (hcat : catOfCode a ≠ catOfCode b) :
    convert value (.str fs) (.str ts) =
      .err (.categoryMismatch (catOfCode a) (catOfCode b) (pyStrip fs) (pyStrip ts)) := by
  unfold convert
  rw [hv]
  simp only [if_neg (strip_ne_empty_of_normalize ha),
    if_neg (strip_ne_empty_of_normalize hb)]
  rw [get_unit_type_of_normalize ha, get_unit_type_of_normalize hb]
  simp only [if_pos hcat]

/-- Classification of every response on a coercible value: the handler never
produces a dispatch-fallback error, and never the value error. -/
theorem convert_classify (value fu tu : JVal) (v : ℚ) (hv : pyFloat value = some v) :
    isFallback (convert value fu tu) = false ∧
    isValueError (convert value fu tu) = false := by
  cases fu with
  | str fs =>
    by_cases hfs : pyStrip fs = ""
    · simp [convert, hv, hfs, isFallback, isValueError]
    · cases tu with
      | str ts =>
        by_cases hts : pyStrip ts = ""
        · simp [convert, hv, hfs, hts, isFallback, isValueError]
        · cases hft : get_unit_type (pyStrip fs) with
          | none => simp [convert, hv, hfs, hts, hft, isFallback, isValueError]
          | some ft =>
            cases htt : get_unit_type (pyStrip ts) with
            | none => simp [convert, hv, hfs, hts, hft, htt, isFallback, isValueError]
            | some tt =>
              by_cases hcat : ft = tt
              · subst hcat
                obtain ⟨a, ha0, hca⟩ := allowed_consistent hft
                obtain ⟨b, hb0, hcb⟩ := allowed_consistent htt
                have ha : normalize (pyStrip fs) = some a := ha0
                have hb : normalize (pyStrip ts) = some b := hb0
                by_cases hneg : (ft = "length" ∨ ft = "weight") ∧ v < 0
                · simp [convert, hv, hfs, hts, hft, htt, ha, hb, hneg,
                    isFallback, isValueError]
                · obtain ⟨c, hc⟩ := dispatch_no_fallback (normalize_isCode ha)
                    (normalize_isCode hb) (hca.trans hcb.symm) v
                  rw [hca] at hc
                  simp [convert, hv, hfs, hts, hft, htt, ha, hb, hneg, hc,
                    isFallback, isValueError]
              · simp [convert, hv, hfs, hts, hft, htt, hcat, isFallback, isValueError]
      | num q => simp [convert, hv, hfs, isFallback, isValueError]
      | bool b => simp [convert, hv, hfs, isFallback, isValueError]
      | null => simp [convert, hv, hfs, isFallback, isValueError]
      | other => simp [convert, hv, hfs, isFallback, isValueError]
  | num q => simp [convert, hv, isFallback, isValueError]
  | bool b => simp [convert, hv, isFallback, isValueError]
  | null => simp [convert, hv, isFallback, isValueError]
  | other => simp [convert, hv, isFallback, isValueError]

/-- Counterexample to claim C7 as stated: the handler echoes the *stripped*
unit strings (src lines 130–131 overwrite the raw ones before `resp` is
built), so for from_unit " MILES " the response carries "MILES", not the
caller's string with its whitespace. -/
theorem claim_C7_counterexample :
    convert (.num 5) (.str " MILES ") (.str "km") =
      .ok ⟨5, "MILES", 8.04672, "km", "length"⟩ ∧
    (("MILES" : String) == " MILES ") = false := by
  constructor
  · have h := convert_valid_ok (.num 5) 5 (miles_to_km 5) " MILES " "km" "mi" "km"
      rfl (by decide) (by decide) (by decide) (by norm_num [catOfCode])
      (by simp [dispatch, catOfCode])
    rw [h]
    have hr : round6 (miles_to_km 5) = ((8046720 : ℤ) : ℚ) / 1000000 :=
      round6_eq _ 8046720 (by norm_num [miles_to_km]) (by norm_num [miles_to_km])
    rw [hr]
    norm_num
    exact ⟨by decide, by decide, by decide⟩
  · decide

/-- Claim C7 amended: every successful conversion echoes the caller-supplied
unit strings with their case preserved but stripped of leading and trailing
whitespace (never the canonical codes). -/
theorem claim_C7_amended (value fu tu : JVal) (r : ConvOk)
    (hok : convert value fu tu = .ok r) :
    ∃ fs ts, fu = .str fs ∧ tu = .str ts ∧
      r.original_unit = pyStrip fs ∧ r.converted_unit = pyStrip ts := by
  unfold convert at hok
  repeat' first
    | split at hok
    | dsimp only [] at hok
  all_goals
    first
      | (refine ⟨_, _, rfl, rfl, ?_, ?_⟩ <;> rw [← ConvResponse.ok.inj hok])
      | exact absurd hok (by simp)

/-- Witness for the amended C7. -/
theorem claim_C7_amended_witness :
    ∃ fs ts, (JVal.str " MILES ") = JVal.str fs ∧ (JVal.str "km") = JVal.str ts ∧
      (ConvOk.mk 1 (pyStrip " MILES ") (round6 (miles_to_km 1)) (pyStrip "km")
        (catOfCode "mi")).original_unit = pyStrip fs ∧
      (ConvOk.mk 1 (pyStrip " MILES ") (round6 (miles_to_km 1)) (pyStrip "km")
        (catOfCode "mi")).converted_unit = pyStrip ts := by
  apply claim_C7_amended (.num 1) (.str " MILES ") (.str "km")
  exact convert_valid_ok (.num 1) 1 (miles_to_km 1) " MILES " "km" "mi" "km"
    rfl (by decide) (by decide) (by decide) (by norm_num [catOfCode])
    (by simp [dispatch, catOfCode])

/-- Claim C8: the dispatch fallbacks are unreachable — no request whatsoever
produces one of the three "Unsupported … conversion pair" errors or the
"Unhandled unit type" error — and the unhandled-category branch, were it
reached, signals HTTP 500. -/
theorem claim_C8 (value fu tu : JVal) :
    isFallback (convert value fu tu) = false ∧
    ConvErr.status .unhandledUnitType = 500 := by
  refine ⟨?_, rfl⟩
  cases hv : pyFloat value with
  | none =>
    unfold convert
    rw [hv]
    rfl
  | some v => exact (convert_classify value fu tu v hv).1

/-- Claim C9: spellings normalizing to the same canonical code are
interchangeable — substituting them in from_unit and to_unit leaves
converted_value and conversion_type unchanged for equal input values. -/
theorem claim_C9 (value : JVal) (v : ℚ) (fs1 fs2 ts1 ts2 a b : String)
    (hv : pyFloat value = some v)
    (hf1 : normalize (pyStrip fs1) = some a)
    (hf2 : normalize (pyStrip fs2) = some a)
    (ht1 : normalize (pyStrip ts1) = some b)
    (ht2 : normalize (pyStrip ts2) = some b) :
    convertedValue (convert value (.str fs1) (.str ts1)) =
      convertedValue (convert value (.str fs2) (.str ts2)) ∧
    conversionType (convert value (.str fs1) (.str ts1)) =
      conversionType (convert value (.str fs2) (.str ts2)) := by
  by_cases hcat : catOfCode a = catOfCode b
  · by_cases hneg : (catOfCode a = "length" ∨ catOfCode a = "weight") ∧ v < 0
    · rw [convert_neg value v fs1 ts1 a b hv hf1 ht1 hcat hneg,
        convert_neg value v fs2 ts2 a b hv hf2 ht2 hcat hneg]
      exact ⟨rfl, rfl⟩
    · rw [convert_valid value v fs1 ts1 a b hv hf1 ht1 hcat hneg,
        convert_valid value v fs2 ts2 a b hv hf2 ht2 hcat hneg]
      cases dispatch (catOfCode a) a b v <;> exact ⟨rfl, rfl⟩
  · rw [convert_mismatch value v fs1 ts1 a b hv hf1 ht1 hcat,
      convert_mismatch value v fs2 ts2 a b hv hf2 ht2 hcat]
    exact ⟨rfl, rfl⟩

/-- Witness for C9: "miles"/"MI" and "km"/"Kilometres" agree at value 2. -/
theorem claim_C9_witness :
    convertedValue (convert (.num 2) (.str "miles") (.str "km")) =
      convertedValue (convert (.num 2) (.str "MI") (.str "Kilometres")) ∧
    conversionType (convert (.num 2) (.str "miles") (.str "km")) =
      conversionType (convert (.num 2) (.str "MI") (.str "Kilometres")) :=
  claim_C9 (.num 2) 2 "miles" "MI" "km" "Kilometres" "mi" "km" rfl
    (by decide) (by decide) (by decide) (by decide)

/-- Claim C10: a boolean JSON value is accepted by the numeric check (Python's
`float` coerces `bool`): the request behaves exactly as with value 1 (resp. 0),
is never answered with the value error, and the coerced number is reported as
original_value and converted. -/
theorem claim_C10 :
    (∀ (b : Bool) (fu tu : JVal),
      convert (.bool b) fu tu = convert (.num (if b then 1 else 0)) fu tu ∧
      isValueError (convert (.bool b) fu tu) = false) ∧
    convert (.bool true) (.str "mi") (.str "km") =
      .ok ⟨1, "mi", 1.609344, "km", "length"⟩ ∧
    convert (.bool false) (.str "mi") (.str "km") =
      .ok ⟨0, "mi", 0, "km", "length"⟩ := by
  refine ⟨?_, ?_, ?_⟩
  case _ =>
    intro b fu tu
    cases b
    · exact ⟨rfl, (convert_classify (.bool false) fu tu 0 rfl).2⟩
    · exact ⟨rfl, (convert_classify (.bool true) fu tu 1 rfl).2⟩
  case _ =>
    have h := convert_valid_ok (.bool true) 1 (miles_to_km 1) "mi" "km" "mi" "km"
      rfl (by decide) (by decide) (by decide) (by norm_num [catOfCode])
      (by simp [dispatch, catOfCode])
    rw [h]
    have hr : round6 (miles_to_km 1) = ((1609344 : ℤ) : ℚ) / 1000000 :=
      round6_eq _ 1609344 (by norm_num [miles_to_km]) (by norm_num [miles_to_km])
    rw [hr]
    norm_num
    exact ⟨by decide, by decide, by decide⟩
  case _ =>
    have h := convert_valid_ok (.bool false) 0 (miles_to_km 0) "mi" "km" "mi" "km"
      rfl (by decide) (by decide) (by decide) (by norm_num [catOfCode])
      (by simp [dispatch, catOfCode])
    rw [h]
    have hr : round6 (miles_to_km 0) = ((0 : ℤ) : ℚ) / 1000000 :=
      round6_eq _ 0 (by norm_num [miles_to_km]) (by norm_num [miles_to_km])
    rw [hr]
    norm_num
    exact ⟨by decide, by decide, by decide⟩

end Lec2Flask
